import Mathlib

/-!
Shallow embedding of the FootballPredictionsBot repository core:
the provider adapter with its offline snapshot fallback
(FootballPredictionsBot/football_api.py), the reconciliation pipeline
(FootballPredictionsBot/data_loader.py) over the persistent store
(FootballPredictionsBot/data_interface.py and the models), the alias
resolution and binding layer (cogs/aliases.py, models/alias.py), and the
outcome classification and leaderboard merge (models/prediction.py,
cogs/predictions.py).

Python integers are embedded as Int (goal counts, ids use Nat where the
column is a provider issued integer primary key), nullable columns as
Option, raised exceptions as Except or an explicit error component, and
each SQLAlchemy table as a list of rows whose primary key column is kept
unique by the upsert operations.
-/

namespace FPB

/-- Row of the leagues table (models/league.py). -/
structure League where
  id : Nat
  name : String
  country : String
  season : Nat
  is_current : Bool
  rank : Option Int
  deriving Repr, DecidableEq

/-- Row of the teams table (models/team.py). -/
structure Team where
  id : Nat
  name : String
  deriving Repr, DecidableEq

/-- Row of the fixtures table (models/fixture.py); the two goal columns are
nullable until the match is played. -/
structure Fixture where
  id : Nat
  league_id : Nat
  date : String
  round : String
  home_team_id : Nat
  away_team_id : Nat
  status : String
  home_goals : Option Int
  away_goals : Option Int
  deriving Repr, DecidableEq

/-- Row of the predictions table (models/prediction.py). -/
structure Prediction where
  fixture_id : Nat
  user_id : Nat
  guild_id : Nat
  home_goals : Int
  away_goals : Int
  deriving Repr, DecidableEq

/-- Exceptions that the embedded code can raise: typeError models the Python
TypeError from subscripting None, apiError the APIError raised for a provider
error envelope or any transport failure, integrityError the sqlite
IntegrityError raised when a flush violates a primary key constraint. -/
inductive PyError where
  | typeError
  | apiError
  | integrityError
  deriving Repr, DecidableEq

/-- Entry of the leagues provider response envelope, the fields consumed by
League.from_api together with the type field used by the filter in
FootballAPI.get_leagues. -/
structure LeagueItem where
  league_id : Nat
  name : String
  country : String
  season : Nat
  is_current : Bool
  type : String
  deriving Repr, DecidableEq

/-- League.from_api of models/league.py: the rank column is not present in the
provider data and stays null. -/
def League.from_api (li : LeagueItem) : League :=
  { id := li.league_id, name := li.name, country := li.country,
    season := li.season, is_current := li.is_current, rank := none }

/-- Content of a leagues snapshot file: the raw response envelope whose api
field holds the leagues array. -/
structure LeaguesEnvelope where
  leagues : List LeagueItem
  deriving Repr, DecidableEq

/-- Content of a fixtures snapshot file; the entries are kept as parsed
Fixture values since Fixture.from_api is a field for field copy. -/
structure FixturesEnvelope where
  fixtures : List Fixture
  deriving Repr, DecidableEq

/-- Content of a teams snapshot file. -/
structure TeamsEnvelope where
  teams : List Team
  deriving Repr, DecidableEq

/-- FootballAPI._read_backup (football_api.py lines 142 to 164): the offline
path reads the snapshot file of the current day when it exists, otherwise the
snapshot of the previous day, otherwise it returns None. The two arguments
are the contents of the two dated snapshot files for the requested data id,
none when the file does not exist. -/
def read_backup {α : Type} (todays_file yesterdays_file : Option α) : Option α :=
  match todays_file with
  | some j => some j
  | none =>
    match yesterdays_file with
    | some j => some j
    | none => none

/-- Offline branch of FootballAPI.get_leagues (football_api.py lines 35 to
47): read_backup supplies the envelope and the caller immediately subscripts
it with the api and leagues keys, so a missing pair of snapshot files makes
the subscript operate on None and raise a TypeError. On data the country,
season and type filter is applied after parsing. -/
def get_leagues_offline (countries : List String) (seasons : List Nat)
    (todays_file yesterdays_file : Option LeaguesEnvelope) :
    Except PyError (List League) :=
  match read_backup todays_file yesterdays_file with
  | none => .error .typeError
  | some envl =>
    .ok ((envl.leagues.filter fun li =>
      li.type == "League" && seasons.contains li.season
        && countries.contains li.country).map League.from_api)

/-- Offline branch of FootballAPI.get_fixtures_by_league (football_api.py
lines 60 to 67); the snapshot files are the ones named by the league id. -/
def get_fixtures_offline (todays_file yesterdays_file : Option FixturesEnvelope) :
    Except PyError (List Fixture) :=
  match read_backup todays_file yesterdays_file with
  | none => .error .typeError
  | some envl => .ok envl.fixtures

/-- Offline branch of FootballAPI.get_teams_by_league (football_api.py lines
80 to 87). -/
def get_teams_offline (todays_file yesterdays_file : Option TeamsEnvelope) :
    Except PyError (List Team) :=
  match read_backup todays_file yesterdays_file with
  | none => .error .typeError
  | some envl => .ok envl.teams

/-- Outcome tiers of models/prediction.py PredictionOutcome; the point
values SCORE and RESULT carry are configuration constants and are passed
separately where points are computed. -/
inductive PredictionOutcome where
  | SCORE
  | RESULT
  | INCORRECT
  deriving Repr, DecidableEq

/-- PredictionOutcome.determine_outcome of models/prediction.py, lines 41 to
52, specialised to a played fixture: p_home and p_away are the predicted
goals, f_home and f_away the actual goals of the fixture (both non null
since the match was played; on an unplayed fixture the Python comparison
of None against an int would not reach the RESULT branch without raising). -/
def determine_outcome (p_home p_away f_home f_away : Int) : PredictionOutcome :=
  if f_home = p_home ∧ f_away = p_away then
    .SCORE
  else if (f_home = f_away ∧ p_home = p_away)
      ∨ (f_home > f_away ∧ p_home > p_away)
      ∨ (f_home < f_away ∧ p_home < p_away) then
    .RESULT
  else
    .INCORRECT

/-- Row of the aliases table (models/alias.py): the value column is the
primary key under a case insensitive collation, and at most one of the four
foreign keys is meant to be non null. -/
structure AliasRow where
  value : String
  fixture_id : Option Nat
  league_id : Option Nat
  team_id : Option Nat
  user_id : Option Nat
  deriving Repr, DecidableEq

/-- Persistent store: one list of rows per table. team_leagues is the derived
teams_leagues association table of models/team.py whose composite primary key
is the (team_id, league_id) pair; users holds the discord ids of the users
table (models/user.py). -/
structure Store where
  leagues : List League
  fixtures : List Fixture
  teams : List Team
  team_leagues : List (Nat × Nat)
  users : List Nat
  aliases : List AliasRow
  deriving Repr, DecidableEq

/-- DataInterface.add_or_update (data_interface.py lines 66 to 77):
session.merge upserts the row by primary key, overwriting the field values of
an existing row with the same key and appending a new row otherwise. -/
def upsertBy {α : Type} (pk : α → Nat) (rows : List α) (item : α) : List α :=
  if rows.any fun r => pk r = pk item then
    rows.map fun r => if pk r = pk item then item else r
  else
    rows ++ [item]

/-- Ordering used by the ORDER BY League.rank clause: sqlite sorts null ranks
first, then ranks ascending. -/
def rankLE (a b : League) : Bool :=
  match a.rank, b.rank with
  | none, _ => true
  | some _, none => false
  | some x, some y => x ≤ y

/-- Stable insertion of a league into a rank sorted list. -/
def insertByRank (l : League) : List League → List League
  | [] => [l]
  | x :: xs => if rankLE x l then x :: insertByRank l xs else l :: x :: xs

/-- Stable sort by rank. -/
def sortByRank (ls : List League) : List League :=
  ls.foldr insertByRank []

/-- DataInterface.get_current_leagues (data_interface.py lines 155 to 163):
the league rows whose is_current flag is set, ordered by rank. -/
def get_current_leagues (s : Store) : List League :=
  sortByRank (s.leagues.filter fun l => l.is_current)

/-- DataLoader.last_refresh_times (data_loader.py line 25): per stage
completion instants, null until the stage first completes. -/
structure LastRefreshTimes where
  leagues : Option Nat
  fixtures : Option Nat
  teams : Option Nat
  team_leagues : Option Nat
  deriving Repr, DecidableEq

/-- State owned by a DataLoader: the persistent store plus the completion
timestamps. -/
structure LoaderState where
  store : Store
  times : LastRefreshTimes
  deriving Repr, DecidableEq

/-- Response of the status endpoint consumed by
DataLoader.get_remaining_api_calls. -/
structure ApiStatus where
  requests_limit_day : Int
  requests : Int
  deriving Repr, DecidableEq

/-- Behaviour of the FootballAPI layer during one refresh, as seen by
DataLoader: every call either returns parsed data or raises. status models
get_status, leagues the get_leagues call with the configured countries and
seasons, fixtures and teams the per league calls. The use_backup flag only
selects how the FootballAPI layer produces these results, so it is absorbed
into this oracle. -/
structure ApiModel where
  status : Except PyError ApiStatus
  leagues : Except PyError (List League)
  fixtures : Nat → Except PyError (List Fixture)
  teams : Nat → Except PyError (List Team)

/-- DataLoader.get_remaining_api_calls (data_loader.py lines 90 to 99). -/
def get_remaining_api_calls (api : ApiModel) : Except PyError Int :=
  match api.status with
  | .error e => .error e
  | .ok st => .ok (st.requests_limit_day - st.requests)

/-- DataLoader.populate_leagues (data_loader.py lines 47 to 53): merge every
fetched league by primary key, then record the completion timestamp. A
failing fetch raises before any merge. -/
def populate_leagues (api : ApiModel) (st : LoaderState) (now : Nat) :
    LoaderState × Option PyError :=
  match api.leagues with
  | .error e => (st, some e)
  | .ok ls =>
    let store := ls.foldl (fun s l => { s with leagues := upsertBy League.id s.leagues l }) st.store
    ({ store := store, times := { st.times with leagues := some now } }, none)

/-- Loop body of DataLoader.populate_fixtures: iterate the current leagues
and merge the fixtures of each; a failing per league fetch raises after the
fixtures of the earlier leagues were already committed. -/
def fetch_fixtures_loop (api : ApiModel) : List League → Store → Store × Option PyError
  | [], s => (s, none)
  | l :: rest, s =>
    match api.fixtures l.id with
    | .error e => (s, some e)
    | .ok fs =>
      fetch_fixtures_loop api rest
        (fs.foldl (fun s2 f => { s2 with fixtures := upsertBy Fixture.id s2.fixtures f }) s)

/-- DataLoader.populate_fixtures (data_loader.py lines 55 to 62). -/
def populate_fixtures (api : ApiModel) (st : LoaderState) (now : Nat) :
    LoaderState × Option PyError :=
  match fetch_fixtures_loop api (get_current_leagues st.store) st.store with
  | (s, none) => ({ store := s, times := { st.times with fixtures := some now } }, none)
  | (s, some e) => ({ st with store := s }, some e)

/-- Loop body of DataLoader.populate_teams, like fetch_fixtures_loop. -/
def fetch_teams_loop (api : ApiModel) : List League → Store → Store × Option PyError
  | [], s => (s, none)
  | l :: rest, s =>
    match api.teams l.id with
    | .error e => (s, some e)
    | .ok ts =>
      fetch_teams_loop api rest
        (ts.foldl (fun s2 t => { s2 with teams := upsertBy Team.id s2.teams t }) s)

/-- DataLoader.populate_teams (data_loader.py lines 64 to 71). -/
def populate_teams (api : ApiModel) (st : LoaderState) (now : Nat) :
    LoaderState × Option PyError :=
  match fetch_teams_loop api (get_current_leagues st.store) st.store with
  | (s, none) => ({ store := s, times := { st.times with teams := some now } }, none)
  | (s, some e) => ({ st with store := s }, some e)

/-- Insertion into a Python set, keeping first insertion order. -/
def setInsert (v : List Nat) (t : Nat) : List Nat :=
  if v.contains t then v else v ++ [t]

/-- Update of a Python set with several elements. -/
def setUnion (v ts : List Nat) : List Nat :=
  ts.foldl setInsert v

/-- One step of the leagues dictionary built by DataLoader.link_teams:
leagues.setdefault(fixture.league, set()).update(teams), keyed here by the
league id since session identity maps rows one to one to their ids. -/
def linkInsert (m : List (Nat × List Nat)) (league_id : Nat) (ts : List Nat) :
    List (Nat × List Nat) :=
  match m with
  | [] => [(league_id, setUnion [] ts)]
  | (k, v) :: rest =>
    if k = league_id then (k, setUnion v ts) :: rest
    else (k, v) :: linkInsert rest league_id ts

/-- First loop of DataLoader.link_teams (data_loader.py lines 79 to 81): scan
every fixture of the store and gather the home and away team of each under
the league of the fixture. -/
def linkGather (fixtures : List Fixture) : List (Nat × List Nat) :=
  fixtures.foldl (fun m f => linkInsert m f.league_id [f.home_team_id, f.away_team_id]) []

/-- Pairs handed to add_team_to_league by the second loop of link_teams, in
iteration order: for every gathered league, one (team id, league id) pair per
gathered team. -/
def link_pairs (fixtures : List Fixture) : List (Nat × Nat) :=
  (linkGather fixtures).foldl (fun acc p => acc ++ p.2.map fun t => (t, p.1)) []

/-- Iterated DataInterface.add_team_to_league (data_interface.py lines 138 to
151): league.teams.append(team) always records a net collection append, and
the flush at commit inserts the (team_id, league_id) row into the
teams_leagues association table. When the pair is already present the insert
violates the composite primary key and the commit raises IntegrityError,
rolling back only the failing append; the appends committed earlier in the
loop keep their rows. -/
def insert_pairs : List (Nat × Nat) → List (Nat × Nat) →
    List (Nat × Nat) × Option PyError
  | [], tl => (tl, none)
  | p :: rest, tl =>
    if tl.contains p then (tl, some .integrityError)
    else insert_pairs rest (tl ++ [p])

/-- DataLoader.link_teams (data_loader.py lines 73 to 86). -/
def link_teams (st : LoaderState) (now : Nat) : LoaderState × Option PyError :=
  match insert_pairs (link_pairs st.store.fixtures) st.store.team_leagues with
  | (tl, none) =>
    ({ store := { st.store with team_leagues := tl },
       times := { st.times with team_leagues := some now } }, none)
  | (tl, some e) =>
    ({ st with store := { st.store with team_leagues := tl } }, some e)

/-- Body of the try block of DataLoader.load_all (data_loader.py lines 34 to
40): the quota status read, the four stages in their fixed order, and the
closing quota status read; the first raise aborts everything after it. -/
def load_all_stages (api : ApiModel) (st : LoaderState) (now : Nat) :
    LoaderState × Option PyError :=
  match get_remaining_api_calls api with
  | .error e => (st, some e)
  | .ok _ =>
    match populate_leagues api st now with
    | (st1, some e) => (st1, some e)
    | (st1, none) =>
      match populate_fixtures api st1 now with
      | (st2, some e) => (st2, some e)
      | (st2, none) =>
        match populate_teams api st2 now with
        | (st3, some e) => (st3, some e)
        | (st3, none) =>
          match link_teams st3 now with
          | (st4, some e) => (st4, some e)
          | (st4, none) =>
            match get_remaining_api_calls api with
            | .error e => (st4, some e)
            | .ok _ => (st4, none)

/-- DataLoader.load_all (data_loader.py lines 27 to 45): any exception of the
try body is swallowed when the ignore_refresh_failures argument is set and
reraised otherwise; either way the state reached by the completed work is
kept. -/
def load_all (ignore_refresh_failures : Bool) (api : ApiModel) (st : LoaderState)
    (now : Nat) : LoaderState × Option PyError :=
  match load_all_stages api st now with
  | (st2, none) => (st2, none)
  | (st2, some e) => if ignore_refresh_failures then (st2, none) else (st2, some e)

/-- Ascii digit test, the relevant fragment of the Python str.isdigit check
used by Aliases._validate_and_get_alias_ref. -/
def isDigitChar (c : Char) : Bool :=
  48 ≤ c.toNat && c.toNat ≤ 57

/-- Ascii lower casing of one character, the folding applied by the sqlite
NOCASE collation of the alias value column. -/
def lowerChar (c : Char) : Char :=
  if 65 ≤ c.toNat ∧ c.toNat ≤ 90 then Char.ofNat (c.toNat + 32) else c

/-- Case insensitive string comparison under the NOCASE collation. -/
def strEqNoCase (a b : String) : Bool :=
  a.data.map lowerChar == b.data.map lowerChar

/-- Decimal digit character for a residue below ten. -/
def digitCharOf (r : Nat) : Char :=
  if r = 0 then Char.ofNat 48
  else if r = 1 then Char.ofNat 49
  else if r = 2 then Char.ofNat 50
  else if r = 3 then Char.ofNat 51
  else if r = 4 then Char.ofNat 52
  else if r = 5 then Char.ofNat 53
  else if r = 6 then Char.ofNat 54
  else if r = 7 then Char.ofNat 55
  else if r = 8 then Char.ofNat 56
  else Char.ofNat 57

/-- Fuelled construction of the decimal text of a natural number, most
significant digit first. -/
def decimalReprAux : Nat → Nat → List Char → List Char
  | 0, _, acc => acc
  | fuel + 1, n, acc =>
    if n < 10 then digitCharOf (n % 10) :: acc
    else decimalReprAux fuel (n / 10) (digitCharOf (n % 10) :: acc)

/-- Decimal text of a natural number, the text sqlite compares a TEXT
affinity column against when the other operand is an integer. -/
def decimalRepr (n : Nat) : String :=
  ⟨decimalReprAux (n + 1) n []⟩

/-- Numeric interpretation of a list of digit characters. -/
def digitsToNat (cs : List Char) : Nat :=
  cs.foldl (fun acc c => acc * 10 + (c.toNat - 48)) 0

/-- Conversion sqlite applies to a purely numeric text value when it is
compared against an INTEGER affinity primary key column; a non numeric text
never matches an integer key. -/
def textToIntPk (v : String) : Option Nat :=
  if !v.data.isEmpty && v.data.all isDigitChar then some (digitsToNat v.data)
  else none

/-- Entity kinds an alias can reference, the four mapped classes accepted by
DataInterface.get besides Alias itself. -/
inductive EntityKind where
  | fixture
  | league
  | team
  | user
  deriving Repr, DecidableEq

/-- Foreign key of an alias row for a given entity kind, the column the
setattr and getattr calls of Aliases._set_alias address through the lower
cased class name. -/
def AliasRow.ref (a : AliasRow) : EntityKind → Option Nat
  | .fixture => a.fixture_id
  | .league => a.league_id
  | .team => a.team_id
  | .user => a.user_id

/-- Primary keys present in the table of a given entity kind. -/
def kindIds (s : Store) : EntityKind → List Nat
  | .fixture => s.fixtures.map Fixture.id
  | .league => s.leagues.map League.id
  | .team => s.teams.map Team.id
  | .user => s.users

/-- Value passed to DataInterface.get as id_or_alias: in the Python code the
one argument is either a raw integer id or an alias string. -/
inductive DbKey where
  | id (n : Nat)
  | txt (s : String)
  deriving Repr, DecidableEq

/-- Text the alias value column is compared against for a given key: a
string compares as itself, an integer is converted to its decimal text by
the TEXT affinity of the column. -/
def keyText : DbKey → String
  | .id n => decimalRepr n
  | .txt s => s

/-- Alias arm of DataInterface.get (data_interface.py line 97): the aliases
filtered by value under the NOCASE collation, joined against the target
table of the requested kind, so the row qualifies only when its foreign key
for that kind is non null and references an existing row. -/
def aliasJoinLookup (s : Store) (kind : EntityKind) (key : DbKey) : Option AliasRow :=
  s.aliases.find? fun a =>
    strEqNoCase a.value (keyText key) &&
      match a.ref kind with
      | some t => (kindIds s kind).contains t
      | none => false

/-- Fallback arm of DataInterface.get (data_interface.py line 100):
session.query(cls).get(id_or_alias), a primary key lookup with the sqlite
text to integer coercion for string inputs. -/
def pkLookup (s : Store) (kind : EntityKind) (key : DbKey) : Option Nat :=
  match key with
  | .id n => if (kindIds s kind).contains n then some n else none
  | .txt v =>
    match textToIntPk v with
    | some n => if (kindIds s kind).contains n then some n else none
    | none => none

/-- DataInterface.get for a non Alias entity class (data_interface.py lines
92 to 100), returning the primary key of the resolved row (the row itself is
determined by it since the upserts keep primary keys unique): first the
alias lookup joined against the target table, on a miss the primary key
lookup. -/
def resolve (s : Store) (kind : EntityKind) (key : DbKey) : Option Nat :=
  match aliasJoinLookup s kind key with
  | some a => a.ref kind
  | none => pkLookup s kind key

/-- DataInterface.get for the Alias class itself (data_interface.py line
94): a primary key lookup on the value column under its NOCASE collation. -/
def findAlias (s : Store) (value : String) : Option AliasRow :=
  s.aliases.find? fun a => strEqNoCase a.value value

/-- CommandDataError raised by Aliases._set_alias and its validation helper:
aliasExists carries the value of the existing alias and the entity reference
reported for it, which the code reads from the attribute named after the
requested kind. -/
inductive CmdError where
  | aliasIsNumber
  | noEntity
  | aliasExists (existing_value : String) (reported_ref : Option Nat)
  deriving Repr, DecidableEq

/-- Row inserted when _set_alias merges its fresh Alias and no row matches
the value: the transient object has only the value and the foreign key of
the requested kind set, so every other column becomes null in the new
row. -/
def mkAliasRow (kind : EntityKind) (value : String) (ref_id : Nat) : AliasRow :=
  { value := value,
    fixture_id := if kind = .fixture then some ref_id else none,
    league_id := if kind = .league then some ref_id else none,
    team_id := if kind = .team then some ref_id else none,
    user_id := if kind = .user then some ref_id else none }

/-- State of a matched alias row after _set_alias merges its fresh Alias
into it: session.merge copies only the attributes that were set on the
transient object, here the value and the foreign key of the requested kind,
while every attribute never set on the transient is skipped, so the other
foreign keys keep the values stored on the matched row. -/
def overwriteKind (a : AliasRow) (kind : EntityKind) (value : String) (ref_id : Nat) :
    AliasRow :=
  { value := value,
    fixture_id := if kind = .fixture then some ref_id else a.fixture_id,
    league_id := if kind = .league then some ref_id else a.league_id,
    team_id := if kind = .team then some ref_id else a.team_id,
    user_id := if kind = .user then some ref_id else a.user_id }

/-- session.merge of the fresh Alias built by _set_alias: the lookup by the
value primary key uses the NOCASE collation; a matched row receives only
the attributes set on the transient (overwriteKind), an unmatched value
inserts the transient as a new row (mkAliasRow). -/
def mergeAlias (aliases : List AliasRow) (kind : EntityKind) (value : String)
    (ref_id : Nat) : List AliasRow :=
  if aliases.any fun a => strEqNoCase a.value value then
    aliases.map fun a =>
      if strEqNoCase a.value value then overwriteKind a kind value ref_id else a
  else
    aliases ++ [mkAliasRow kind value ref_id]

/-- Aliases._set_alias together with _validate_and_get_alias_ref
(cogs/aliases.py lines 169 to 228): reject a purely numeric value, resolve
the target id failing when no entity exists, refuse an existing alias unless
overwrite is set (reporting the attribute of the requested kind on the
existing alias), otherwise merge the fresh binding. -/
def set_alias (s : Store) (kind : EntityKind) (alias_value : String) (idKey : DbKey)
    (overwrite : Bool) : Except CmdError Store :=
  if alias_value.data.all isDigitChar then .error .aliasIsNumber
  else
    match resolve s kind idKey with
    | none => .error .noEntity
    | some alias_ref =>
      match findAlias s alias_value with
      | some existing =>
        if overwrite then
          .ok { s with aliases := mergeAlias s.aliases kind alias_value alias_ref }
        else
          .error (.aliasExists existing.value (existing.ref kind))
      | none =>
        .ok { s with aliases := mergeAlias s.aliases kind alias_value alias_ref }

/-- Per user accumulator of the leaderboard: total points, count of exact
scores and count of correct results. -/
structure ScoreEntry where
  points : Int
  scores : Int
  results : Int
  deriving Repr, DecidableEq

/-- Points formula applied to a legacy scores document entry
(cogs/predictions.py lines 198 to 199). -/
def legacyPoints (pts_score pts_result scores results : Int) : Int :=
  scores * pts_score + results * pts_result

/-- Body of the merge loop of Predictions.leaderboard for one entry of the
legacy scores document: convert the entry to points with the formula, then
sum into the existing name or insert the new name. -/
def spflStep (pts_score pts_result : Int) (fin : String → Option ScoreEntry)
    (entry : String × Int × Int) : String → Option ScoreEntry :=
  let points := legacyPoints pts_score pts_result entry.2.1 entry.2.2
  match fin entry.1 with
  | some cur => fun n =>
      if n = entry.1 then
        some ⟨cur.points + points, cur.scores + entry.2.1, cur.results + entry.2.2⟩
      else fin n
  | none => fun n =>
      if n = entry.1 then some ⟨points, entry.2.1, entry.2.2⟩ else fin n

/-- Merge loop of Predictions.leaderboard (cogs/predictions.py lines 197 to
209): fold the legacy scores document into the per name map built from the
internal predictions. -/
def combine_spfl (pts_score pts_result : Int) (final_scores : String → Option ScoreEntry)
    (spfl_scores : List (String × Int × Int)) : String → Option ScoreEntry :=
  spfl_scores.foldl (spflStep pts_score pts_result) final_scores

/-- Lookup in the legacy scores document, keyed by exact display name. -/
def spflLookup (spfl_scores : List (String × Int × Int)) (n : String) :
    Option (Int × Int) :=
  (spfl_scores.find? fun e => e.1 == n).map fun e => e.2

/-- Legacy scores document as a per name map of converted entries. -/
def spflAsMap (pts_score pts_result : Int) (spfl_scores : List (String × Int × Int)) :
    String → Option ScoreEntry :=
  fun n => (spflLookup spfl_scores n).map fun p =>
    ⟨legacyPoints pts_score pts_result p.1 p.2, p.1, p.2⟩

/-- Component wise sum of two score entries. -/
def addEntries (a b : ScoreEntry) : ScoreEntry :=
  ⟨a.points + b.points, a.scores + b.scores, a.results + b.results⟩

/-- Name keyed merge of two leaderboard sources: sum for a name present in
both, carry through for a name present in one. -/
def mergeScores (A B : String → Option ScoreEntry) : String → Option ScoreEntry :=
  fun n =>
    match A n, B n with
    | some a, some b => some (addEntries a b)
    | some a, none => some a
    | none, some b => some b
    | none, none => none

/-- Two integers have the same sign exactly when they are both zero, both
positive or both negative. -/
theorem sign_eq_sign_iff (x y : Int) :
    x.sign = y.sign ↔ ((x = 0 ∧ y = 0) ∨ (0 < x ∧ 0 < y) ∨ (x < 0 ∧ y < 0)) := by
  rcases lt_trichotomy x 0 with hx | hx | hx <;>
    rcases lt_trichotomy y 0 with hy | hy | hy <;>
      simp [Int.sign_eq_neg_one_of_neg, Int.sign_eq_one_of_pos, hx, hy] <;>
        omega

/-- C3: for a played match, outcome classification evaluates the tiers in
precedence order: a component wise equal predicted score yields SCORE
(Exact); otherwise an equal sign of (predicted home goals minus predicted
away goals) and (actual home goals minus actual away goals) yields RESULT;
otherwise INCORRECT. In particular match 2-1 with prediction 2-1 is Exact,
match 2-1 with prediction 3-1 is Result, match 1-1 with prediction 0-0 is
Result, and match 2-1 with prediction 1-2 is Incorrect. -/
theorem outcome_tiers :
    (∀ p_home p_away f_home f_away : Int,
      (determine_outcome p_home p_away f_home f_away = .SCORE ↔
        (p_home = f_home ∧ p_away = f_away)) ∧
      (determine_outcome p_home p_away f_home f_away = .RESULT ↔
        (¬(p_home = f_home ∧ p_away = f_away) ∧
          (p_home - p_away).sign = (f_home - f_away).sign)) ∧
      (determine_outcome p_home p_away f_home f_away = .INCORRECT ↔
        (¬(p_home = f_home ∧ p_away = f_away) ∧
          ¬(p_home - p_away).sign = (f_home - f_away).sign)))
    ∧ determine_outcome 2 1 2 1 = .SCORE
    ∧ determine_outcome 3 1 2 1 = .RESULT
    ∧ determine_outcome 0 0 1 1 = .RESULT
    ∧ determine_outcome 1 2 2 1 = .INCORRECT := by
  refine ⟨?_, by decide, by decide, by decide, by decide⟩
  intro ph pa fh fa
  have hs := sign_eq_sign_iff (ph - pa) (fh - fa)
  rw [sub_eq_zero, sub_eq_zero, sub_pos, sub_pos, sub_neg, sub_neg] at hs
  unfold determine_outcome
  split_ifs with h1 h2 <;> refine ⟨?_, ?_, ?_⟩ <;> simp_all <;> omega

/-- Concrete instance of outcome_tiers: the exact score tier at match 2-1
with prediction 2-1. -/
theorem outcome_tiers_witness : determine_outcome 2 1 2 1 = .SCORE :=
  outcome_tiers.2.1

/-- C1: with use_backup set and neither snapshot file present, _read_backup
returns None and every datatype getter immediately subscripts that None, so
the call raises a TypeError instead of returning the empty result the claim
describes. -/
theorem offline_no_snapshot_raises :
    @read_backup LeaguesEnvelope none none = none
    ∧ (∀ (countries : List String) (seasons : List Nat),
        get_leagues_offline countries seasons none none = .error .typeError)
    ∧ get_fixtures_offline none none = .error .typeError
    ∧ get_teams_offline none none = .error .typeError :=
  ⟨rfl, fun _ _ => rfl, rfl, rfl⟩

/-- C10: the all digits validation test is vacuously true on the empty
string, so binding the empty string as an alias value always fails with the
numeric alias error before any lookup or write happens. -/
theorem empty_alias_rejected :
    ∀ (s : Store) (kind : EntityKind) (idKey : DbKey) (overwrite : Bool),
      set_alias s kind "" idKey overwrite = .error .aliasIsNumber
        ∧ "".data.all isDigitChar = true :=
  fun _ _ _ _ => ⟨rfl, rfl⟩

/-- Current league of the refresh scenarios. -/
def league_c2 : League :=
  ⟨1, "Premiership", "Scotland", 2019, true, none⟩

/-- Played fixture of the refresh scenarios. -/
def fixture_c2 : Fixture :=
  ⟨100, 1, "2020-02-01T15:00:00", "Round 1", 10, 11, "Match Finished", some 2, some 1⟩

/-- Home team of the refresh scenarios. -/
def team_c2a : Team := ⟨10, "Celtic"⟩

/-- Away team of the refresh scenarios. -/
def team_c2b : Team := ⟨11, "Rangers"⟩

/-- Provider behaviour of the double refresh scenario: every call succeeds
and returns the same data on both runs. -/
def api_c2 : ApiModel :=
  { status := .ok ⟨100, 7⟩,
    leagues := .ok [league_c2],
    fixtures := fun lid => if lid = 1 then .ok [fixture_c2] else .ok [],
    teams := fun lid => if lid = 1 then .ok [team_c2a, team_c2b] else .ok [] }

/-- Store with no rows. -/
def empty_store : Store := ⟨[], [], [], [], [], []⟩

/-- Loader state before any refresh. -/
def st0 : LoaderState := ⟨empty_store, ⟨none, none, none, none⟩⟩

/-- C2: the first refresh on an empty store succeeds and derives the two
membership rows, but the second refresh with identical provider data raises
IntegrityError from the membership link stage, because
add_team_to_league appends the team to the loaded relationship collection
again and the flush inserts a duplicate (team_id, league_id) row into the
composite primary key of teams_leagues; the second run therefore fails
instead of completing as an idempotent upsert (its store is unchanged only
because the failing insert rolls back). -/
theorem second_refresh_raises_integrity_error :
    load_all false api_c2 st0 5 =
      ({ store := { leagues := [league_c2], fixtures := [fixture_c2],
                    teams := [team_c2a, team_c2b], team_leagues := [(10, 1), (11, 1)],
                    users := [], aliases := [] },
         times := ⟨some 5, some 5, some 5, some 5⟩ }, none)
    ∧ (load_all false api_c2 (load_all false api_c2 st0 5).1 6).2 = some .integrityError
    ∧ (load_all false api_c2 (load_all false api_c2 st0 5).1 6).1.store =
        (load_all false api_c2 st0 5).1.store :=
  ⟨rfl, rfl, rfl⟩

/-- Provider behaviour where only the quota status endpoint fails while all
data endpoints would succeed, the situation of an offline refresh from
backups with the API down. -/
def api_c8 : ApiModel :=
  { status := .error .apiError,
    leagues := .ok [league_c2],
    fixtures := fun _ => .ok [],
    teams := fun _ => .ok [] }

/-- C8: the quota status read sits inside the try block before the four
stages, so its failure aborts the whole run: without the ignore flag load_all
reraises with the state untouched, and with the ignore flag the exception is
swallowed but the stages are skipped and the store is still not updated,
although league data was available. -/
theorem quota_failure_skips_stages :
    load_all false api_c8 st0 3 = (st0, some .apiError)
    ∧ load_all true api_c8 st0 3 = (st0, none)
    ∧ (load_all true api_c8 st0 3).1.store.leagues = []
    ∧ (load_all true api_c8 st0 3).1.times.leagues = none :=
  ⟨rfl, rfl, rfl, rfl⟩

/-- Unfolding of the merge loop on a first entry. -/
theorem combine_spfl_cons (S R : Int) (f : String → Option ScoreEntry)
    (e : String × Int × Int) (l : List (String × Int × Int)) (n : String) :
    combine_spfl S R f (e :: l) n = combine_spfl S R (spflStep S R f e) l n :=
  rfl

/-- The merge step leaves every other name unchanged. -/
theorem spflStep_ne (S R : Int) (f : String → Option ScoreEntry)
    {u n : String} {sc rs : Int} (h : n ≠ u) :
    spflStep S R f (u, sc, rs) n = f n := by
  unfold spflStep
  cases f u <;> simp [h]

/-- Head entry of the legacy document viewed as a map. -/
theorem spflAsMap_cons_self (S R : Int) {u : String} {sc rs : Int}
    (rest : List (String × Int × Int)) :
    spflAsMap S R ((u, sc, rs) :: rest) u = some ⟨legacyPoints S R sc rs, sc, rs⟩ := by
  simp [spflAsMap, spflLookup, List.find?_cons]

/-- Skipping a head entry with a different name. -/
theorem spflAsMap_cons_ne (S R : Int) {u n : String} {sc rs : Int}
    (rest : List (String × Int × Int)) (h : n ≠ u) :
    spflAsMap S R ((u, sc, rs) :: rest) n = spflAsMap S R rest n := by
  have hbeq : (u == n) = false := by simp [Ne.symm h]
  simp [spflAsMap, spflLookup, List.find?_cons, hbeq]

/-- A name absent from the keys of the legacy document maps to none. -/
theorem spflAsMap_eq_none (S R : Int) {u : String}
    {rest : List (String × Int × Int)} (h : u ∉ rest.map Prod.fst) :
    spflAsMap S R rest u = none := by
  simp only [spflAsMap, spflLookup]
  rw [List.find?_eq_none.2]
  · rfl
  · intro e he hbeq
    exact h (List.mem_map.2 ⟨e, he, by simpa using hbeq⟩)

/-- C7: the leaderboard merge of the internal per user scores map and the
legacy scores document is commutative: the name keyed merge sums the points
and both counters for a name present in both sources and carries a name
present in one source through unchanged, and the fold the code performs over
the legacy document computes exactly this merge of the two maps, so merging
A into B gives the same per name totals as merging B into A. -/
theorem leaderboard_merge_commutative :
    (∀ (A B : String → Option ScoreEntry) (n : String),
        mergeScores A B n = mergeScores B A n)
    ∧ (∀ (pts_score pts_result : Int) (final_scores : String → Option ScoreEntry)
        (spfl_scores : List (String × Int × Int)) (n : String),
        (spfl_scores.map Prod.fst).Nodup →
        combine_spfl pts_score pts_result final_scores spfl_scores n =
          mergeScores final_scores (spflAsMap pts_score pts_result spfl_scores) n) := by
  constructor
  · intro A B n
    unfold mergeScores
    cases A n <;> cases B n <;> simp [addEntries, Int.add_comm]
  · intro S R f spfl n h
    induction spfl generalizing f with
    | nil =>
      cases hf : f n <;> simp [combine_spfl, mergeScores, spflAsMap, spflLookup, hf]
    | cons e rest ih =>
      obtain ⟨u, sc, rs⟩ := e
      rw [List.map_cons, List.nodup_cons] at h
      obtain ⟨hu, hrest⟩ := h
      rw [combine_spfl_cons, ih _ hrest]
      by_cases hn : n = u
      · subst hn
        unfold mergeScores
        rw [spflAsMap_eq_none S R hu, spflAsMap_cons_self]
        unfold spflStep
        cases hf : f n <;> simp [addEntries, legacyPoints]
      · unfold mergeScores
        rw [spflAsMap_cons_ne _ _ rest hn, spflStep_ne S R f hn]

/-- Legacy document of the merge witness. -/
def spfl_w : List (String × Int × Int) := [("bob", 2, 1)]

/-- Internal scores map of the merge witness. -/
def final_w : String → Option ScoreEntry :=
  fun n => if n = "bob" then some ⟨7, 2, 1⟩ else none

/-- Concrete instance of leaderboard_merge_commutative on a one entry legacy
document whose key set is duplicate free. -/
theorem leaderboard_merge_commutative_witness :
    combine_spfl 3 1 final_w spfl_w "bob" =
      mergeScores final_w (spflAsMap 3 1 spfl_w) "bob" :=
  leaderboard_merge_commutative.2 3 1 final_w spfl_w "bob" (by simp [spfl_w])

/-- Successful quota read. -/
theorem get_remaining_ok {api : ApiModel} {s0 : ApiStatus} (h : api.status = .ok s0) :
    get_remaining_api_calls api = .ok (s0.requests_limit_day - s0.requests) := by
  unfold get_remaining_api_calls
  rw [h]

/-- Failed quota read. -/
theorem get_remaining_err {api : ApiModel} {e : PyError} (h : api.status = .error e) :
    get_remaining_api_calls api = .error e := by
  unfold get_remaining_api_calls
  rw [h]

/-- A failing league stage comes from a failing fetch and changes nothing. -/
theorem populate_leagues_some {api : ApiModel} {st st1 : LoaderState} {now : Nat}
    {e : PyError} (h : populate_leagues api st now = (st1, some e)) :
    st1 = st ∧ api.leagues = .error e := by
  unfold populate_leagues at h
  cases hl : api.leagues <;> rw [hl] at h <;> rw [Prod.mk.injEq] at h
  · obtain ⟨h1, h2⟩ := h
    rw [Option.some.injEq] at h2
    exact ⟨h1.symm, by rw [h2]⟩
  · simp at h

/-- A completing league stage stamps only the leagues timestamp. -/
theorem populate_leagues_none_times {api : ApiModel} {st st1 : LoaderState} {now : Nat}
    (h : populate_leagues api st now = (st1, none)) :
    st1.times = { st.times with leagues := some now } := by
  unfold populate_leagues at h
  cases hl : api.leagues <;> rw [hl] at h <;> rw [Prod.mk.injEq] at h
  · simp at h
  · rw [← h.1]

/-- A failing fixture stage keeps every timestamp. -/
theorem populate_fixtures_some_times {api : ApiModel} {st st2 : LoaderState} {now : Nat}
    {e : PyError} (h : populate_fixtures api st now = (st2, some e)) :
    st2.times = st.times := by
  unfold populate_fixtures at h
  rcases hf : fetch_fixtures_loop api (get_current_leagues st.store) st.store with ⟨s, err⟩
  rw [hf] at h
  cases err <;> rw [Prod.mk.injEq] at h
  · simp at h
  · rw [← h.1]

/-- A completing fixture stage stamps only the fixtures timestamp. -/
theorem populate_fixtures_none_times {api : ApiModel} {st st2 : LoaderState} {now : Nat}
    (h : populate_fixtures api st now = (st2, none)) :
    st2.times = { st.times with fixtures := some now } := by
  unfold populate_fixtures at h
  rcases hf : fetch_fixtures_loop api (get_current_leagues st.store) st.store with ⟨s, err⟩
  rw [hf] at h
  cases err <;> rw [Prod.mk.injEq] at h
  · rw [← h.1]
  · simp at h

/-- A failing team stage keeps every timestamp. -/
theorem populate_teams_some_times {api : ApiModel} {st st3 : LoaderState} {now : Nat}
    {e : PyError} (h : populate_teams api st now = (st3, some e)) :
    st3.times = st.times := by
  unfold populate_teams at h
  rcases hf : fetch_teams_loop api (get_current_leagues st.store) st.store with ⟨s, err⟩
  rw [hf] at h
  cases err <;> rw [Prod.mk.injEq] at h
  · simp at h
  · rw [← h.1]

/-- A completing team stage stamps only the teams timestamp. -/
theorem populate_teams_none_times {api : ApiModel} {st st3 : LoaderState} {now : Nat}
    (h : populate_teams api st now = (st3, none)) :
    st3.times = { st.times with teams := some now } := by
  unfold populate_teams at h
  rcases hf : fetch_teams_loop api (get_current_leagues st.store) st.store with ⟨s, err⟩
  rw [hf] at h
  cases err <;> rw [Prod.mk.injEq] at h
  · rw [← h.1]
  · simp at h

/-- A failing link stage keeps every timestamp. -/
theorem link_teams_some_times {st st4 : LoaderState} {now : Nat} {e : PyError}
    (h : link_teams st now = (st4, some e)) :
    st4.times = st.times := by
  unfold link_teams at h
  rcases hf : insert_pairs (link_pairs st.store.fixtures) st.store.team_leagues with ⟨tl, err⟩
  rw [hf] at h
  cases err <;> rw [Prod.mk.injEq] at h
  · simp at h
  · rw [← h.1]

/-- A completing link stage stamps only the membership timestamp. -/
theorem link_teams_none_times {st st4 : LoaderState} {now : Nat}
    (h : link_teams st now = (st4, none)) :
    st4.times = { st.times with team_leagues := some now } := by
  unfold link_teams at h
  rcases hf : insert_pairs (link_pairs st.store.fixtures) st.store.team_leagues with ⟨tl, err⟩
  rw [hf] at h
  cases err <;> rw [Prod.mk.injEq] at h
  · rw [← h.1]
  · simp at h

/-- C4: a failing stage of load_all aborts the remaining stages: the try
body stops at the first raise, the exception propagates to the caller unless
ignore_refresh_failures is set in which case it is swallowed, and either way
the state keeps exactly the work of the completed stages; each completion
timestamp is stamped only by a succeeding stage, so the failed stage and all
stages after it keep their previous timestamps. -/
theorem stage_failure_semantics :
    ∀ (api : ApiModel) (st : LoaderState) (now : Nat),
      (∀ st2 e, load_all_stages api st now = (st2, some e) →
          load_all false api st now = (st2, some e)
          ∧ load_all true api st now = (st2, none))
      ∧ (∀ e s0, api.status = .ok s0 → api.leagues = .error e →
          load_all_stages api st now = (st, some e))
      ∧ (∀ e s0 st1 st2, api.status = .ok s0 →
          populate_leagues api st now = (st1, none) →
          populate_fixtures api st1 now = (st2, some e) →
          load_all_stages api st now = (st2, some e)
          ∧ st2.times = { st.times with leagues := some now })
      ∧ (∀ e s0 st1 st2 st3, api.status = .ok s0 →
          populate_leagues api st now = (st1, none) →
          populate_fixtures api st1 now = (st2, none) →
          populate_teams api st2 now = (st3, some e) →
          load_all_stages api st now = (st3, some e)
          ∧ st3.times = { st.times with
              leagues := some now
              fixtures := some now })
      ∧ (∀ e s0 st1 st2 st3 st4, api.status = .ok s0 →
          populate_leagues api st now = (st1, none) →
          populate_fixtures api st1 now = (st2, none) →
          populate_teams api st2 now = (st3, none) →
          link_teams st3 now = (st4, some e) →
          load_all_stages api st now = (st4, some e)
          ∧ st4.times = { st.times with
              leagues := some now
              fixtures := some now
              teams := some now }) := by
  intro api st now
  refine ⟨?_, ?_, ?_, ?_, ?_⟩
  · intro st2 e h
    unfold load_all
    rw [h]
    exact ⟨rfl, rfl⟩
  · intro e s0 h0 h1
    unfold load_all_stages populate_leagues
    rw [get_remaining_ok h0, h1]
  · intro e s0 st1 st2 h0 hpl hpf
    constructor
    · unfold load_all_stages
      simp only [get_remaining_ok h0, hpl, hpf]
    · rw [populate_fixtures_some_times hpf, populate_leagues_none_times hpl]
  · intro e s0 st1 st2 st3 h0 hpl hpf hpt
    constructor
    · unfold load_all_stages
      simp only [get_remaining_ok h0, hpl, hpf, hpt]
    · rw [populate_teams_some_times hpt, populate_fixtures_none_times hpf,
        populate_leagues_none_times hpl]
  · intro e s0 st1 st2 st3 st4 h0 hpl hpf hpt hlk
    constructor
    · unfold load_all_stages
      simp only [get_remaining_ok h0, hpl, hpf, hpt, hlk]
    · rw [link_teams_some_times hlk, populate_teams_none_times hpt,
        populate_fixtures_none_times hpf, populate_leagues_none_times hpl]

/-- Provider behaviour whose league fetch fails while the quota read
succeeds. -/
def api_c4 : ApiModel :=
  { status := .ok ⟨100, 7⟩,
    leagues := .error .apiError,
    fixtures := fun _ => .ok [],
    teams := fun _ => .ok [] }

/-- Concrete instance of stage_failure_semantics: a failing league stage
leaves the state untouched and stops the run. -/
theorem stage_failure_semantics_witness :
    load_all_stages api_c4 st0 1 = (st0, some .apiError) :=
  (stage_failure_semantics api_c4 st0 1).2.1 .apiError ⟨100, 7⟩ rfl rfl

/-- Upserting an item leaves a row carrying the key of the item. -/
theorem upsertBy_key_self {α : Type} (pk : α → Nat) (rows : List α) (item : α) :
    ∃ r ∈ upsertBy pk rows item, pk r = pk item := by
  unfold upsertBy
  split
  · rename_i h
    obtain ⟨r, hr, hpk⟩ := List.any_eq_true.1 h
    exact ⟨item, List.mem_map.2 ⟨r, hr, by rw [if_pos (of_decide_eq_true hpk)]⟩, rfl⟩
  · exact ⟨item, by simp, rfl⟩

/-- Upserting preserves the presence of every key. -/
theorem upsertBy_key_preserved {α : Type} (pk : α → Nat) (rows : List α) (item : α)
    {k : Nat} (h : ∃ r ∈ rows, pk r = k) :
    ∃ r ∈ upsertBy pk rows item, pk r = k := by
  obtain ⟨r, hr, hpk⟩ := h
  unfold upsertBy
  split
  · by_cases hk : pk r = pk item
    · exact ⟨item, List.mem_map.2 ⟨r, hr, by rw [if_pos hk]⟩, by rw [← hk, hpk]⟩
    · exact ⟨r, List.mem_map.2 ⟨r, hr, by rw [if_neg hk]⟩, hpk⟩
  · exact ⟨r, List.mem_append_left _ hr, hpk⟩

/-- A fold of upserts preserves the presence of every key. -/
theorem foldl_upsert_key_preserved {α : Type} (pk : α → Nat) (items : List α) :
    ∀ (rows : List α) {k : Nat}, (∃ r ∈ rows, pk r = k) →
      ∃ r ∈ items.foldl (upsertBy pk) rows, pk r = k := by
  induction items with
  | nil => intro rows k h; simpa using h
  | cons i rest ih =>
    intro rows k h
    exact ih _ (upsertBy_key_preserved pk rows i h)

/-- After a fold of upserts every folded item has a row with its key. -/
theorem foldl_upsert_key_mem {α : Type} (pk : α → Nat) (items : List α) :
    ∀ (rows : List α) (i : α), i ∈ items →
      ∃ r ∈ items.foldl (upsertBy pk) rows, pk r = pk i := by
  induction items with
  | nil => simp
  | cons j rest ih =>
    intro rows i hi
    rcases List.mem_cons.1 hi with rfl | h
    · exact foldl_upsert_key_preserved pk rest _ (upsertBy_key_self pk rows i)
    · exact ih _ i h

/-- The league upsert fold only touches the leagues table. -/
theorem leagues_fold_store (ls : List League) :
    ∀ s : Store,
      ((ls.foldl (fun s2 l => { s2 with leagues := upsertBy League.id s2.leagues l }) s).fixtures
          = s.fixtures)
      ∧ ((ls.foldl (fun s2 l => { s2 with leagues := upsertBy League.id s2.leagues l }) s).teams
          = s.teams)
      ∧ ((ls.foldl (fun s2 l => { s2 with leagues := upsertBy League.id s2.leagues l }) s).team_leagues
          = s.team_leagues)
      ∧ ((ls.foldl (fun s2 l => { s2 with leagues := upsertBy League.id s2.leagues l }) s).leagues
          = ls.foldl (upsertBy League.id) s.leagues) := by
  induction ls with
  | nil => intro s; exact ⟨rfl, rfl, rfl, rfl⟩
  | cons l rest ih =>
    intro s
    simpa using ih { s with leagues := upsertBy League.id s.leagues l }

/-- The team upsert fold only touches the teams table. -/
theorem teams_fold_store (ts : List Team) :
    ∀ s : Store,
      ((ts.foldl (fun s2 t => { s2 with teams := upsertBy Team.id s2.teams t }) s).fixtures
          = s.fixtures)
      ∧ ((ts.foldl (fun s2 t => { s2 with teams := upsertBy Team.id s2.teams t }) s).leagues
          = s.leagues)
      ∧ ((ts.foldl (fun s2 t => { s2 with teams := upsertBy Team.id s2.teams t }) s).team_leagues
          = s.team_leagues)
      ∧ ((ts.foldl (fun s2 t => { s2 with teams := upsertBy Team.id s2.teams t }) s).teams
          = ts.foldl (upsertBy Team.id) s.teams) := by
  induction ts with
  | nil => intro s; exact ⟨rfl, rfl, rfl, rfl⟩
  | cons t rest ih =>
    intro s
    simpa using ih { s with teams := upsertBy Team.id s.teams t }

/-- A successful league fetch makes the stage a pure fold of upserts. -/
theorem populate_leagues_ok {api : ApiModel} {ls : List League}
    (h : api.leagues = .ok ls) (st : LoaderState) (now : Nat) :
    populate_leagues api st now =
      ({ store := ls.foldl (fun s2 l => { s2 with leagues := upsertBy League.id s2.leagues l })
            st.store,
         times := { st.times with leagues := some now } }, none) := by
  unfold populate_leagues
  rw [h]

/-- When every per league fixture fetch returns no data the fixture loop
leaves the store untouched. -/
theorem fetch_fixtures_loop_empty (api : ApiModel)
    (h : ∀ lid, api.fixtures lid = .ok []) :
    ∀ (L : List League) (s : Store), fetch_fixtures_loop api L s = (s, none) := by
  intro L
  induction L with
  | nil => intro s; rfl
  | cons l rest ih =>
    intro s
    unfold fetch_fixtures_loop
    rw [h l.id]
    exact ih s

/-- When every per league team fetch succeeds the team loop completes, only
touches the teams table, and leaves a row for every fetched team while
preserving the keys of the rows already present. -/
theorem fetch_teams_loop_ok (api : ApiModel) (tms : Nat → List Team)
    (h : ∀ lid, api.teams lid = .ok (tms lid)) :
    ∀ (L : List League) (s : Store),
      (fetch_teams_loop api L s).2 = none
      ∧ (fetch_teams_loop api L s).1.fixtures = s.fixtures
      ∧ (fetch_teams_loop api L s).1.leagues = s.leagues
      ∧ (fetch_teams_loop api L s).1.team_leagues = s.team_leagues
      ∧ (∀ l ∈ L, ∀ t ∈ tms l.id, ∃ r ∈ (fetch_teams_loop api L s).1.teams, r.id = t.id)
      ∧ (∀ k : Nat, (∃ r ∈ s.teams, r.id = k) →
          ∃ r ∈ (fetch_teams_loop api L s).1.teams, r.id = k) := by
  intro L
  induction L with
  | nil =>
    intro s
    exact ⟨rfl, rfl, rfl, rfl, by simp, fun k hk => hk⟩
  | cons l rest ih =>
    intro s
    have hstep : fetch_teams_loop api (l :: rest) s =
        fetch_teams_loop api rest
          ((tms l.id).foldl (fun s2 t => { s2 with teams := upsertBy Team.id s2.teams t }) s) := by
      conv_lhs => rw [fetch_teams_loop]
      rw [h l.id]
    set s2 := (tms l.id).foldl (fun s2 t => { s2 with teams := upsertBy Team.id s2.teams t }) s
      with hs2
    obtain ⟨hcomp1, hcomp2, hcomp3, hcomp4⟩ := teams_fold_store (tms l.id) s
    obtain ⟨ihe, ihf, ihl, ihtl, ihmem, ihpres⟩ := ih s2
    rw [hstep]
    refine ⟨ihe, ihf.trans hcomp1, ihl.trans hcomp2, ihtl.trans hcomp3, ?_, ?_⟩
    · intro l2 hl2 t ht
      rcases List.mem_cons.1 hl2 with rfl | hrest
      · refine ihpres t.id ?_
        rw [hs2, hcomp4]
        exact foldl_upsert_key_mem Team.id (tms l2.id) s.teams t ht
      · exact ihmem l2 hrest t ht
    · intro k hk
      refine ihpres k ?_
      rw [hs2, hcomp4]
      exact foldl_upsert_key_preserved Team.id (tms l.id) s.teams hk

/-- With no fixture rows in the store the link stage derives no pairs and
only stamps its timestamp. -/
theorem link_teams_no_fixtures {st : LoaderState} (h : st.store.fixtures = [])
    (now : Nat) :
    link_teams st now =
      ({ store := st.store, times := { st.times with team_leagues := some now } }, none) := by
  unfold link_teams
  rw [h]
  rfl

/-- C9 (amended): when the store holds no fixture rows at all and the
provider returns no fixtures for any league, a full refresh completes and
leaves the membership table exactly as it was, while league and team rows
are still upserted from the fetched data. (The link pass scans every stored
fixture, current competition or not, which is why the hypothesis is about
all matches rather than only those of current competitions.) -/
theorem no_fixtures_membership_unchanged :
    ∀ (api : ApiModel) (st : LoaderState) (now : Nat) (s0 : ApiStatus)
      (ls : List League) (tms : Nat → List Team),
      api.status = .ok s0 →
      api.leagues = .ok ls →
      st.store.fixtures = [] →
      (∀ lid, api.fixtures lid = .ok []) →
      (∀ lid, api.teams lid = .ok (tms lid)) →
      (load_all false api st now).2 = none
      ∧ (load_all false api st now).1.store.team_leagues = st.store.team_leagues
      ∧ (load_all false api st now).1.times.team_leagues = some now
      ∧ (∀ l ∈ ls, ∃ r ∈ (load_all false api st now).1.store.leagues, r.id = l.id)
      ∧ (∀ l ∈ get_current_leagues (populate_leagues api st now).1.store,
          ∀ t ∈ tms l.id, ∃ r ∈ (load_all false api st now).1.store.teams, r.id = t.id) := by
  intro api st now s0 ls tms h0 hls hempty hfx htm
  have hplE := populate_leagues_ok hls st now
  set stL : LoaderState :=
    { store := ls.foldl (fun s2 l => { s2 with leagues := upsertBy League.id s2.leagues l })
        st.store,
      times := { st.times with leagues := some now } } with hstL
  obtain ⟨hLfix, hLteams, hLtl, hLlg⟩ := leagues_fold_store ls st.store
  have hfixL : stL.store.fixtures = [] := by
    rw [hstL]
    exact hLfix.trans hempty
  have hloopF := fetch_fixtures_loop_empty api hfx (get_current_leagues stL.store) stL.store
  have hpf : populate_fixtures api stL now =
      ({ store := stL.store, times := { stL.times with fixtures := some now } }, none) := by
    unfold populate_fixtures
    rw [hloopF]
  set stF : LoaderState :=
    { store := stL.store, times := { stL.times with fixtures := some now } } with hstF
  obtain ⟨hTe, hTfix, hTlg, hTtl, hTmem, hTpres⟩ :=
    fetch_teams_loop_ok api tms htm (get_current_leagues stF.store) stF.store
  rcases hftl : fetch_teams_loop api (get_current_leagues stF.store) stF.store with ⟨s3, err3⟩
  rw [hftl] at hTe hTfix hTlg hTtl hTmem hTpres
  simp only at hTe
  subst hTe
  have hpt : populate_teams api stF now =
      ({ store := s3, times := { stF.times with teams := some now } }, none) := by
    unfold populate_teams
    rw [hftl]
  set stT : LoaderState := { store := s3, times := { stF.times with teams := some now } }
    with hstT
  have hfixT : stT.store.fixtures = [] := by
    rw [hstT]
    exact hTfix.trans hfixL
  have hlk := link_teams_no_fixtures hfixT now
  have hstages : load_all_stages api st now =
      ({ store := stT.store, times := { stT.times with team_leagues := some now } }, none) := by
    unfold load_all_stages
    simp only [get_remaining_ok h0, hplE, hpf, hpt, hlk]
  have hfinal : load_all false api st now =
      ({ store := stT.store, times := { stT.times with team_leagues := some now } }, none) := by
    unfold load_all
    rw [hstages]
  rw [hfinal]
  refine ⟨rfl, ?_, rfl, ?_, ?_⟩
  · show s3.team_leagues = st.store.team_leagues
    exact hTtl.trans hLtl
  · intro l hl
    show ∃ r ∈ s3.leagues, r.id = l.id
    rw [hTlg]
    show ∃ r ∈ stL.store.leagues, r.id = l.id
    rw [hstL]
    simp only
    rw [hLlg]
    exact foldl_upsert_key_mem League.id ls st.store.leagues l hl
  · intro l hl t ht
    show ∃ r ∈ s3.teams, r.id = t.id
    rw [hplE] at hl
    exact hTmem l hl t ht

/-- League that is no longer current but still has a stored fixture. -/
def league_c9 : League := ⟨9, "Championship", "Scotland", 2018, false, none⟩

/-- Stored fixture of the no longer current league. -/
def fixture_c9 : Fixture :=
  ⟨50, 9, "2019-03-01T15:00:00", "Round 30", 5, 6, "Match Finished", some 1, some 0⟩

/-- Store holding no match of any current competition, but one stale match
of a non current league, and an empty membership table. -/
def store_c9 : Store :=
  { leagues := [league_c9],
    fixtures := [fixture_c9],
    teams := [⟨5, "Ayr"⟩, ⟨6, "Morton"⟩],
    team_leagues := [],
    users := [],
    aliases := [] }

/-- Teams the provider returns per league in the stale fixture scenario. -/
def tms_c9 (lid : Nat) : List Team :=
  if lid = 1 then [⟨7, "Hearts"⟩] else []

/-- Provider behaviour of the stale fixture scenario: one current league,
no fixtures for any league, one team for the current league. -/
def api_c9 : ApiModel :=
  { status := .ok ⟨100, 7⟩,
    leagues := .ok [league_c2],
    fixtures := fun _ => .ok [],
    teams := fun lid => .ok (tms_c9 lid) }

/-- C9 (counterexample): starting from store_c9 the store contains no match
of any current competition (the only current competition after the run is
league 1, the stored fixture belongs to league 9, and the provider returns
no fixtures), yet the run succeeds and the membership table changes from
empty to the two pairs derived from the stale fixture, because link_teams
scans every stored fixture rather than only those of current
competitions. -/
theorem membership_changed_without_current_matches :
    (store_c9.fixtures.all fun f => f.league_id != 1) = true
    ∧ api_c9.fixtures 1 = .ok []
    ∧ get_current_leagues store_c9 = []
    ∧ (get_current_leagues
        (load_all false api_c9 ⟨store_c9, ⟨none, none, none, none⟩⟩ 7).1.store).map League.id
        = [1]
    ∧ store_c9.team_leagues = []
    ∧ (load_all false api_c9 ⟨store_c9, ⟨none, none, none, none⟩⟩ 7).2 = none
    ∧ (load_all false api_c9 ⟨store_c9, ⟨none, none, none, none⟩⟩ 7).1.store.team_leagues
        = [(5, 9), (6, 9)] :=
  ⟨rfl, rfl, rfl, rfl, rfl, rfl, rfl⟩

/-- Concrete instance of no_fixtures_membership_unchanged: a refresh from an
empty store with the stale fixture scenario provider keeps the membership
table empty. -/
theorem no_fixtures_membership_unchanged_witness :
    (load_all false api_c9 st0 7).2 = none
    ∧ (load_all false api_c9 st0 7).1.store.team_leagues = st0.store.team_leagues := by
  have H := no_fixtures_membership_unchanged api_c9 st0 7 ⟨100, 7⟩ [league_c2] tms_c9
    rfl rfl rfl (fun _ => rfl) (fun _ => rfl)
  exact ⟨H.1, H.2.1⟩

/-- Scalar value of a character built from a small code point. -/
theorem char_toNat_ofNat {m : Nat} (hm : m < 55296) : (Char.ofNat m).toNat = m := by
  unfold Char.ofNat
  rw [dif_pos]
  · rfl
  · exact Or.inl hm

/-- Lower casing fixes digit characters. -/
theorem lowerChar_of_digit {c : Char} (h : isDigitChar c = true) : lowerChar c = c := by
  simp only [isDigitChar, Bool.and_eq_true, decide_eq_true_eq] at h
  unfold lowerChar
  rw [if_neg]
  intro hc
  omega

/-- A character whose lower casing is a digit is itself a digit. -/
theorem digit_of_lowerChar {c : Char} (h : isDigitChar (lowerChar c) = true) :
    isDigitChar c = true := by
  unfold lowerChar at h
  by_cases hc : 65 ≤ c.toNat ∧ c.toNat ≤ 90
  · rw [if_pos hc] at h
    simp only [isDigitChar, Bool.and_eq_true, decide_eq_true_eq] at h
    rw [char_toNat_ofNat (by omega)] at h
    omega
  · rwa [if_neg hc] at h

/-- Each digit character really is a digit. -/
theorem digitCharOf_isDigit (r : Nat) : isDigitChar (digitCharOf r) = true := by
  unfold digitCharOf
  split_ifs <;> decide

/-- Every character the fuelled decimal construction emits is a digit. -/
theorem decimalReprAux_digits :
    ∀ (fuel n : Nat) (acc : List Char), acc.all isDigitChar = true →
      (decimalReprAux fuel n acc).all isDigitChar = true := by
  intro fuel
  induction fuel with
  | zero => intro n acc h; exact h
  | succ f ih =>
    intro n acc h
    unfold decimalReprAux
    split
    · simp [digitCharOf_isDigit, h]
    · exact ih _ _ (by simp [digitCharOf_isDigit, h])

/-- The decimal text of a natural number consists of digits. -/
theorem decimalRepr_digits (n : Nat) : (decimalRepr n).data.all isDigitChar = true :=
  decimalReprAux_digits (n + 1) n [] rfl

/-- A value that is not purely numeric never compares case insensitively
equal to the decimal text of an integer key. -/
theorem strEqNoCase_decimal_false {b : String} (h : b.data.all isDigitChar = false)
    (t : Nat) : strEqNoCase b (decimalRepr t) = false := by
  cases hsec : strEqNoCase b (decimalRepr t) with
  | false => rfl
  | true =>
    exfalso
    simp only [strEqNoCase, beq_iff_eq] at hsec
    have hrdig := decimalRepr_digits t
    rw [List.all_eq_true] at hrdig
    have hall : b.data.all isDigitChar = true := by
      rw [List.all_eq_true]
      intro c hc
      have hmem : lowerChar c ∈ (decimalRepr t).data.map lowerChar := by
        rw [← hsec]
        exact List.mem_map_of_mem lowerChar hc
      obtain ⟨d, hd, hld⟩ := List.mem_map.1 hmem
      have hfix : lowerChar d = d := lowerChar_of_digit (hrdig d hd)
      have hcd : lowerChar c = d := by rw [← hld, hfix]
      exact digit_of_lowerChar (by rw [hcd]; exact hrdig d hd)
    rw [hall] at h
    simp at h

/-- Case insensitive comparison is reflexive. -/
theorem strEqNoCase_refl (v : String) : strEqNoCase v v = true := by
  simp [strEqNoCase]

/-- A value that is not purely numeric is not coerced to an integer key. -/
theorem textToIntPk_none {v : String} (h : v.data.all isDigitChar = false) :
    textToIntPk v = none := by
  unfold textToIntPk
  rw [if_neg]
  simp [h]

/-- find? returns the unique element satisfying the predicate. -/
theorem find?_eq_some_unique {α : Type} {p : α → Bool} {a : α} :
    ∀ {l : List α}, a ∈ l → p a = true → (∀ b ∈ l, p b = true → b = a) →
      l.find? p = some a := by
  intro l
  induction l with
  | nil => simp
  | cons x xs ih =>
    intro hmem hpa huniq
    by_cases hx : p x = true
    · rw [List.find?_cons_of_pos _ hx, huniq x (by simp) hx]
    · rw [List.find?_cons_of_neg _ (by simpa using hx)]
      rcases List.mem_cons.1 hmem with rfl | hxs
      · exact absurd hpa hx
      · exact ih hxs hpa fun b hb => huniq b (List.mem_cons_of_mem _ hb)

/-- C5: resolving an entity kind through a bound alias value gives the same
row as resolving through the raw primary key of the target, under the data
model invariants that alias values are unique up to case and never purely
numeric: the alias path finds the binding joined against the target table,
while the raw path misses the alias lookup (an integer key never compares
equal to a non numeric value) and falls back to the primary key lookup; when
the target row is absent both paths return nothing. -/
theorem resolve_alias_eq_raw :
    ∀ (s : Store) (kind : EntityKind) (a : AliasRow) (t : Nat),
      a ∈ s.aliases →
      a.ref kind = some t →
      (∀ b ∈ s.aliases, strEqNoCase b.value a.value = true → b = a) →
      (∀ b ∈ s.aliases, b.value.data.all isDigitChar = false) →
      resolve s kind (.txt a.value) = resolve s kind (.id t)
      ∧ ((kindIds s kind).contains t = true →
          resolve s kind (.txt a.value) = some t) := by
  intro s kind a t hmem href huniq hnonnum
  have hrawalias : aliasJoinLookup s kind (.id t) = none := by
    unfold aliasJoinLookup
    rw [List.find?_eq_none]
    intro b hb hpred
    rw [Bool.and_eq_true] at hpred
    have hfalse := strEqNoCase_decimal_false (hnonnum b hb) t
    have htrue := hpred.1
    simp only [keyText] at htrue
    rw [htrue] at hfalse
    simp at hfalse
  by_cases hcont : (kindIds s kind).contains t = true
  · have htxtalias : aliasJoinLookup s kind (.txt a.value) = some a := by
      unfold aliasJoinLookup
      apply find?_eq_some_unique hmem
      · rw [Bool.and_eq_true]
        refine ⟨strEqNoCase_refl a.value, ?_⟩
        rw [href]
        exact hcont
      · intro b hb hpb
        rw [Bool.and_eq_true] at hpb
        exact huniq b hb hpb.1
    refine ⟨?_, ?_⟩
    · simp only [resolve, htxtalias, hrawalias, href, pkLookup, hcont]
      simp
    · intro _
      simp only [resolve, htxtalias, href]
  · have hbf : (kindIds s kind).contains t = false := by
      cases h2 : (kindIds s kind).contains t
      · rfl
      · exact absurd h2 hcont
    have htxtalias : aliasJoinLookup s kind (.txt a.value) = none := by
      unfold aliasJoinLookup
      rw [List.find?_eq_none]
      intro b hb hpb
      rw [Bool.and_eq_true] at hpb
      have hba : b = a := huniq b hb hpb.1
      subst hba
      have h2 := hpb.2
      rw [href] at h2
      change (kindIds s kind).contains t = true at h2
      rw [hbf] at h2
      exact Bool.noConfusion h2
    refine ⟨?_, fun hc => absurd hc hcont⟩
    simp only [resolve, htxtalias, hrawalias, pkLookup,
      textToIntPk_none (hnonnum a hmem), hbf]
    simp

/-- Alias row binding the value dons to team 5. -/
def alias_dons : AliasRow := ⟨"dons", none, none, some 5, none⟩

/-- Store of the alias scenarios: one current league, one team, one alias
bound to the team. -/
def store_c56 : Store :=
  { leagues := [⟨3, "Premiership", "Scotland", 2019, true, none⟩],
    fixtures := [],
    teams := [⟨5, "Aberdeen"⟩],
    team_leagues := [],
    users := [],
    aliases := [alias_dons] }

/-- Concrete instance of resolve_alias_eq_raw: the team alias dons resolves
to the same row as the raw team id 5. -/
theorem resolve_alias_eq_raw_witness :
    resolve store_c56 .team (.txt "dons") = resolve store_c56 .team (.id 5) :=
  (resolve_alias_eq_raw store_c56 .team alias_dons 5 (by decide) (by decide)
    (by decide) (by decide)).1

/-- find? over a map that rewrote every matching element returns the
rewriting of the element find? returned before the map, provided rewritten
elements still match. -/
theorem find?_map_overwrite {α : Type} (p : α → Bool) (f : α → α)
    (hf : ∀ a, p (f a) = true) :
    ∀ {l : List α} {x : α}, l.find? p = some x →
      (l.map fun a => if p a then f a else a).find? p = some (f x) := by
  intro l
  induction l with
  | nil => intro x h; simp at h
  | cons y ys ih =>
    intro x h
    by_cases hy : p y = true
    · rw [List.find?_cons_of_pos _ hy, Option.some.injEq] at h
      subst h
      simp only [List.map_cons, if_pos hy]
      rw [List.find?_cons_of_pos _ (hf _)]
    · rw [List.find?_cons_of_neg _ (by simpa using hy)] at h
      simp only [List.map_cons, if_neg hy]
      rw [List.find?_cons_of_neg _ (by simpa using hy)]
      exact ih h

/-- The merged alias row references the new entity under the requested
kind. -/
theorem overwriteKind_ref_self (a : AliasRow) (kind : EntityKind) (v : String)
    (rid : Nat) : (overwriteKind a kind v rid).ref kind = some rid := by
  cases kind <;> simp [overwriteKind, AliasRow.ref]

/-- The merged alias row keeps the stored reference of every other kind. -/
theorem overwriteKind_ref_other (a : AliasRow) (kind : EntityKind) (v : String)
    (rid : Nat) {k2 : EntityKind} (h : k2 ≠ kind) :
    (overwriteKind a kind v rid).ref k2 = a.ref k2 := by
  cases kind <;> cases k2 <;>
    first
      | exact absurd rfl h
      | simp [overwriteKind, AliasRow.ref]

/-- C6 (amended): binding an alias value that is already bound fails without
the overwrite flag and leaves the store unchanged, reporting the referenced
entity the existing alias carries for the requested kind, which is the
target of the existing binding whenever that binding is of the requested
kind (and null when the existing alias binds a different kind); with the
overwrite flag the merge updates the matched row in place: the value and the
foreign key of the requested kind come from the new binding, so the alias
now resolves to the new target for that kind, while a reference the existing
alias holds under a different kind survives on the row (merge skips
attributes never set on the transient object), and aliases with other values
and the entity tables are untouched. -/
theorem bind_overwrite_semantics :
    ∀ (s : Store) (kind : EntityKind) (v : String) (idKey : DbKey)
      (ex : AliasRow) (rid : Nat),
      findAlias s v = some ex →
      v.data.all isDigitChar = false →
      resolve s kind idKey = some rid →
      set_alias s kind v idKey false = .error (.aliasExists ex.value (ex.ref kind))
      ∧ (∀ tgt, ex.ref kind = some tgt →
          set_alias s kind v idKey false = .error (.aliasExists ex.value (some tgt)))
      ∧ (∃ s2, set_alias s kind v idKey true = .ok s2
          ∧ findAlias s2 v = some (overwriteKind ex kind v rid)
          ∧ (overwriteKind ex kind v rid).ref kind = some rid
          ∧ (∀ k2, k2 ≠ kind → (overwriteKind ex kind v rid).ref k2 = ex.ref k2)
          ∧ (∀ b ∈ s.aliases, strEqNoCase b.value v = false → b ∈ s2.aliases)
          ∧ s2.leagues = s.leagues ∧ s2.teams = s.teams ∧ s2.fixtures = s.fixtures) := by
  intro s kind v idKey ex rid hex hnd hres
  have hA : set_alias s kind v idKey false
      = .error (.aliasExists ex.value (ex.ref kind)) := by
    unfold set_alias
    simp [hnd, hres, hex]
  have hex2 : s.aliases.find? (fun a => strEqNoCase a.value v) = some ex := hex
  have hpex := List.find?_some hex2
  have hanyp : (s.aliases.any fun a => strEqNoCase a.value v) = true :=
    List.any_eq_true.2 ⟨ex, List.mem_of_find?_eq_some hex2, hpex⟩
  have hmerge : mergeAlias s.aliases kind v rid =
      s.aliases.map fun a =>
        if strEqNoCase a.value v then overwriteKind a kind v rid else a := by
    unfold mergeAlias
    rw [if_pos hanyp]
  have hB : set_alias s kind v idKey true
      = .ok { s with aliases := mergeAlias s.aliases kind v rid } := by
    unfold set_alias
    simp [hnd, hres, hex]
  refine ⟨hA, ?_, ?_⟩
  · intro tgt htgt
    rw [hA, htgt]
  · refine ⟨{ s with aliases := mergeAlias s.aliases kind v rid }, hB, ?_,
      overwriteKind_ref_self ex kind v rid,
      fun k2 hk2 => overwriteKind_ref_other ex kind v rid hk2, ?_, rfl, rfl, rfl⟩
    · show findAlias _ v = _
      unfold findAlias
      simp only [hmerge]
      exact find?_map_overwrite (fun a => strEqNoCase a.value v)
        (fun a => overwriteKind a kind v rid) (fun a => strEqNoCase_refl v) hex2
    · intro b hb hbf
      simp only [hmerge]
      exact List.mem_map.2 ⟨b, hb, by rw [if_neg (by simp [hbf])]⟩

/-- C6 (counterexample): binding the alias dons, currently bound to team 5,
to league 3 without overwrite fails as the claim says, but the error reports
the league attribute of the existing alias, which is null, not the target of
the existing binding (team 5). -/
theorem bind_report_cross_kind :
    set_alias store_c56 .league "dons" (.id 3) false
      = .error (.aliasExists "dons" none)
    ∧ findAlias store_c56 "dons" = some alias_dons
    ∧ alias_dons.team_id = some 5 :=
  ⟨rfl, rfl, rfl⟩

/-- Concrete instance of bind_overwrite_semantics: rebinding dons to team 5
without overwrite fails and reports the existing binding target team 5 since
the kinds coincide; overwriting dons with league 3 leaves a row that carries
the new league reference while the old team reference survives on it. -/
theorem bind_overwrite_semantics_witness :
    set_alias store_c56 .team "dons" (.id 5) false
      = .error (.aliasExists "dons" (some 5))
    ∧ ∃ s2, set_alias store_c56 .league "dons" (.id 3) true = .ok s2
        ∧ findAlias s2 "dons" = some ⟨"dons", none, some 3, some 5, none⟩ := by
  have H1 := bind_overwrite_semantics store_c56 .team "dons" (.id 5) alias_dons 5
    (by decide) (by decide) (by decide)
  have H2 := bind_overwrite_semantics store_c56 .league "dons" (.id 3) alias_dons 3
    (by decide) (by decide) (by decide)
  refine ⟨H1.2.1 5 (by decide), ?_⟩
  obtain ⟨s2, hok, hfind, _⟩ := H2.2.2
  exact ⟨s2, hok, hfind⟩

end FPB


